import Mathlib

/-!
Verification of the atmosphere-geometry core of the particle-simulation
repository (`particle_simulation/construction.py`): layer-bound construction
for the flat and curved topologies, the local/real altitude correction,
profile resampling, per-layer magnetic-field resolution, detector layer
lookup and position clamping, and the uniform-field setter.

All arithmetic is carried out over `ℚ` (the exact-arithmetic reading of the
floating-point code). Lengths use the internal unit system of the toolkit:
`mm = 1`, `km = 10 ^ 6 mm`, `tesla = 1 / 1000`.
-/

namespace ParticleSim

/-- Internal length unit: one millimetre. -/
def mm : ℚ := 1

/-- Internal length unit: one kilometre (`10 ^ 6` millimetres). -/
def km : ℚ := 1000000

/-- Internal magnetic-flux-density unit. -/
def tesla : ℚ := 1 / 1000

/-! ## Layer geometry (`construct_flat_world` / `construct_spherical_world`) -/

/-- Correction factor of the flat world: `self.correction_factor = -self.atmosphere_height / 2`. -/
def flatCorrection (H : ℚ) : ℚ := -H / 2

/-- Half height of one atmosphere slab: `box_height = self.atmosphere_height / self.density_points / 2`. -/
def boxHeight (H : ℚ) (N : ℕ) : ℚ := H / N / 2

/-- Lower altitude limit of flat layer `i`:
`self.altitude_limits[i][0] = i * self.atmosphere_height / self.density_points + self.correction_factor`. -/
def flatLower (H : ℚ) (N : ℕ) (i : ℕ) : ℚ := i * H / N + flatCorrection H

/-- Upper altitude limit of flat layer `i`:
`self.altitude_limits[i][1] = i * self.atmosphere_height / self.density_points + 2 * box_height + self.correction_factor`. -/
def flatUpper (H : ℚ) (N : ℕ) (i : ℕ) : ℚ :=
  i * H / N + 2 * boxHeight H N + flatCorrection H

/-- The flat-world `altitude_limits` table, one `(lower, upper)` pair per layer. -/
def flatLimits (H : ℚ) (N : ℕ) : List (ℚ × ℚ) :=
  (List.range N).map fun i => (flatLower H N i, flatUpper H N i)

/-- Correction factor of the curved world: `self.correction_factor = earth_rad`. -/
def curvedCorrection (R : ℚ) : ℚ := R

/-- Lower radial limit of curved layer `i`:
`self.altitude_limits[i][0] = self.correction_factor + i * self.atmosphere_height / self.density_points`. -/
def curvedLower (R H : ℚ) (N : ℕ) (i : ℕ) : ℚ := curvedCorrection R + i * H / N

/-- Upper radial limit of curved layer `i`:
`self.altitude_limits[i][1] = self.correction_factor + (i + 1) * self.atmosphere_height / self.density_points`. -/
def curvedUpper (R H : ℚ) (N : ℕ) (i : ℕ) : ℚ :=
  curvedCorrection R + (i + 1) * H / N

/-- The curved-world `altitude_limits` table, one `(lower, upper)` pair per layer. -/
def curvedLimits (R H : ℚ) (N : ℕ) : List (ℚ × ℚ) :=
  (List.range N).map fun i => (curvedLower R H N i, curvedUpper R H N i)

/-! ## Altitude conversion -/

/-- Conversion the code applies to a configured real altitude (given in km) to obtain a
local coordinate: `detectors_alt = np.array(self.config.sensitive_detectors.altitude) * km
+ self.correction_factor`. -/
def codeLocalAltitude (realKm corr : ℚ) : ℚ := realKm * km + corr

/-- Conversion written in the spec data model: `real_altitude = local_coordinate + offset`.
This follows the words of the spec, for comparison with the conversion the code applies. -/
def specRealAltitude (localCoord offset : ℚ) : ℚ := localCoord + offset

/-! ## Detector size and position clamp -/

/-- Layer thickness `atmosphere_height / density_points` (each topology divides the
height evenly over the layers). -/
def layerThickness (H : ℚ) (N : ℕ) : ℚ := H / N

/-- Full detector extent chosen by both topologies:
`detector_size = min(10 * mm, self.atmosphere_height / self.density_points / 10)`. -/
def detectorSize (H : ℚ) (N : ℕ) : ℚ := min (10 * mm) (H / N / 10)

/-- Half extent of the detector solid; the flat builder hands `detector_size / 2` to the
box constructor as a half height. -/
def detectorHalfSize (H : ℚ) (N : ℕ) : ℚ := detectorSize H N / 2

/-- Fixed upper half-size of a detector: half of the `10 * mm` cap. -/
def fixedDetectorHalfSize : ℚ := 5 * mm

/-- Position adjustment of the flat builder, with `b = box_height` (the upper local
limit, the lower one being `-b`), `h = detector_size / 2` and `p = detector_position`:
`if detector_position + detector_size / 2 > upper_lim: detector_position = upper_lim -
detector_size / 2; elif detector_position - detector_size / 2 < lower_lim:
detector_position += detector_size / 2`. -/
def clampFlat (b h p : ℚ) : ℚ :=
  if b < p + h then b - h
  else if p - h < -b then p + h
  else p

/-! ## Detector layer lookup -/

/-- Scan of the `for j in range(N)` loop over `altitude_limits`: the first index whose
closed interval contains `alt`, starting the count at `j`. -/
def findLayerAux (alt : ℚ) : List (ℚ × ℚ) → ℕ → Option ℕ
  | [], _ => none
  | p :: rest, j => if p.1 ≤ alt ∧ alt ≤ p.2 then some j else findLayerAux alt rest (j + 1)

/-- Layer index assigned to a detector altitude: the loop writes the first matching `j`
into `detectors_layer[i]`, which `np.zeros` initialised to `0`, so the index stays `0`
when no interval contains the altitude. -/
def detectorLayer (limits : List (ℚ × ℚ)) (alt : ℚ) : ℕ :=
  (findLayerAux alt limits 0).getD 0

/-! ## Flat-world detector placement -/

/-- Placement of one detector in the flat world: converts the configured altitude (km)
to the local coordinate, looks up the layer, and clamps the position relative to the
layer centre (`layer_center = self.altitude_limits[detectors_layer[i]][0] + box_height`). -/
def placeDetectorFlat (H : ℚ) (N : ℕ) (realAltKm : ℚ) : ℕ × ℚ :=
  let alt := codeLocalAltitude realAltKm (flatCorrection H)
  let j := detectorLayer (flatLimits H N) alt
  let layerCenter := flatLower H N j + boxHeight H N
  (j, clampFlat (boxHeight H N) (detectorSize H N / 2) (alt - layerCenter))

/-- Placement of every configured detector in the flat world: the loop body runs for
each entry of `detectors_alt` and always issues a `G4PVPlacement`. -/
def placeDetectorsFlat (H : ℚ) (N : ℕ) (realAltsKm : List ℚ) : List (ℕ × ℚ) :=
  realAltsKm.map (placeDetectorFlat H N)

/-! ## Linear interpolation (`np.interp`) -/

/-- Piecewise-linear interpolation with edge clamping over a table of
`(position, value)` pairs whose positions are assumed increasing — the semantics of
`np.interp(x, xp, fp)`: values are clamped to `fp[0]` below the table, to `fp[-1]`
above it, and interpolated linearly inside each segment. -/
def interp1 (x : ℚ) : List (ℚ × ℚ) → ℚ
  | [] => 0
  | [p] => p.2
  | p :: q :: rest =>
    if x ≤ p.1 then p.2
    else if x ≤ q.1 then p.2 + (q.2 - p.2) * (x - p.1) / (q.1 - p.1)
    else interp1 x (q :: rest)

/-! ## Profile resampling (`parse_density_temp_from_config`) -/

/-- Evaluation of the resampled density and temperature at one sample altitude `x`:
`np.interp(x, height, density)` and `np.interp(x, height, temp)` over the profile
arrays read from the day entry of the json file. -/
def resampleAt (alts dens temps : List ℚ) (x : ℚ) : ℚ × ℚ :=
  (interp1 x (alts.zip dens), interp1 x (alts.zip temps))

/-- Sample altitude `i` of `np.linspace(0, self.atmosphere_height, self.density_points)`
(the `inter_heights` array): `i * H / (N - 1)` for `N ≥ 2` and `0` for `N = 1`. -/
def interHeights (H : ℚ) (N : ℕ) (i : ℕ) : ℚ :=
  if N = 1 then 0 else i * H / ((N : ℚ) - 1)

/-! ## Magnetic field resolution (`get_magnetic_field`) -/

/-- Row of the magnetic-field csv file: components in nanotesla, altitude in km. -/
structure MagSample where
  x : ℚ
  y : ℚ
  z : ℚ
  altitude : ℚ
deriving DecidableEq

/-- The `(altitude, x)` interpolation table after the unit conversions
`open_csv[["x", "y", "z"]] * 1e-9` and `open_csv["altitude"] * km`. -/
def magTableX (rows : List MagSample) : List (ℚ × ℚ) :=
  rows.map fun r => (r.altitude * km, r.x / 1000000000)

/-- The `(altitude, y)` interpolation table after the unit conversions. -/
def magTableY (rows : List MagSample) : List (ℚ × ℚ) :=
  rows.map fun r => (r.altitude * km, r.y / 1000000000)

/-- The `(altitude, z)` interpolation table after the unit conversions. -/
def magTableZ (rows : List MagSample) : List (ℚ × ℚ) :=
  rows.map fun r => (r.altitude * km, r.z / 1000000000)

/-- File branch of `get_magnetic_field`: each component is interpolated with
`np.interp(self.inter_heights, mag_field[:, 3], mag_field[:, k])`, one vector per
layer index. -/
def getMagneticFieldFile (H : ℚ) (N : ℕ) (rows : List MagSample) : List (ℚ × ℚ × ℚ) :=
  (List.range N).map fun i =>
    (interp1 (interHeights H N i) (magTableX rows),
     interp1 (interHeights H N i) (magTableY rows),
     interp1 (interHeights H N i) (magTableZ rows))

/-- Result of one geomagnetic-model query (`gm.calculate`), components in nanotesla. -/
structure GeoMagResult where
  x : ℚ
  y : ℚ
  z : ℚ

/-- Model branch of `get_magnetic_field`: the model (with latitude, longitude and
decimal year fixed by the configuration, so abstracted here as a function of the
altitude in km alone) is queried at `alt=self.inter_heights[i] / km`, and the result
becomes `np.array([result.x, result.y, -result.z]) * 1e-9`. -/
def getMagneticFieldModel (H : ℚ) (N : ℕ) (model : ℚ → GeoMagResult) : List (ℚ × ℚ × ℚ) :=
  (List.range N).map fun i =>
    ((model (interHeights H N i / km)).x / 1000000000,
     (model (interHeights H N i / km)).y / 1000000000,
     -(model (interHeights H N i / km)).z / 1000000000)

/-- Real mid-altitude of layer `i`: the geometric midpoint of the layer bounds taken
back to real altitude. Following the words of the claim, for comparison with the
altitudes the code actually queries; equals `(i + 1/2) * H / N` in both topologies. -/
def midpointRealAltitude (H : ℚ) (N : ℕ) (i : ℕ) : ℚ :=
  (flatLower H N i + flatUpper H N i) / 2 - flatCorrection H

/-- Field table interpolation performed at the layer mid-altitudes, following the words
of the claim, for comparison with `getMagneticFieldFile`. -/
def claimedFieldFile (H : ℚ) (N : ℕ) (rows : List MagSample) : List (ℚ × ℚ × ℚ) :=
  (List.range N).map fun i =>
    (interp1 (midpointRealAltitude H N i) (magTableX rows),
     interp1 (midpointRealAltitude H N i) (magTableY rows),
     interp1 (midpointRealAltitude H N i) (magTableZ rows))

/-! ## Uniform magnetic field (`UniformMagneticField`) -/

/-- State of a `UniformMagneticField`: the three cartesian components `fbx`, `fby`, `fbz`. -/
structure UniformMagneticField where
  fbx : ℚ
  fby : ℚ
  fbz : ℚ
deriving DecidableEq

/-- Constructor of `UniformMagneticField`: stores `x * tesla`, `y * tesla`, `z * tesla`. -/
def UniformMagneticField.init (x y z : ℚ) : UniformMagneticField :=
  ⟨x * tesla, y * tesla, z * tesla⟩

/-- Method `SetFieldy`: `self.fby = val`, leaving the other components untouched. -/
def SetFieldy (f : UniformMagneticField) (val : ℚ) : UniformMagneticField :=
  { f with fby := val }

/-- Method `GetFieldValue`: writes `(self.fbx, self.fby, self.fbz)` into `Bfield`. -/
def GetFieldValue (f : UniformMagneticField) : ℚ × ℚ × ℚ :=
  (f.fbx, f.fby, f.fbz)

end ParticleSim

namespace ParticleSim

/-- C1: for every layer count `N ≥ 1` and atmosphere height `H > 0`, both the flat
and the curved builder produce `N` layers, adjacent bounds coincide
(`upper_bound[i] = lower_bound[i+1]`), and the per-layer thicknesses sum to `H`
exactly over `ℚ`. -/
theorem layers_contiguous_and_sum (H R : ℚ) (N : ℕ) (hH : 0 < H) (hN : 1 ≤ N) :
    (flatLimits H N).length = N ∧
    (curvedLimits R H N).length = N ∧
    (∀ i, i + 1 < N → flatUpper H N i = flatLower H N (i + 1)) ∧
    (∑ i in Finset.range N, (flatUpper H N i - flatLower H N i)) = H ∧
    (∀ i, i + 1 < N → curvedUpper R H N i = curvedLower R H N (i + 1)) ∧
    (∑ i in Finset.range N, (curvedUpper R H N i - curvedLower R H N i)) = H := by
  have hN0 : (N : ℚ) ≠ 0 := by
    have : N ≠ 0 := by omega
    exact_mod_cast this
  refine ⟨?_, ?_, ?_, ?_, ?_, ?_⟩
  · simp [flatLimits]
  · simp [curvedLimits]
  · intro i _
    unfold flatUpper flatLower boxHeight flatCorrection
    push_cast
    ring
  · have hterm : ∀ i ∈ Finset.range N, flatUpper H N i - flatLower H N i = H / N := by
      intro i _
      unfold flatUpper flatLower boxHeight
      ring
    rw [Finset.sum_congr rfl hterm, Finset.sum_const, Finset.card_range,
      nsmul_eq_mul]
    field_simp
  · intro i _
    unfold curvedUpper curvedLower curvedCorrection
    push_cast
    ring
  · have hterm : ∀ i ∈ Finset.range N, curvedUpper R H N i - curvedLower R H N i = H / N := by
      intro i _
      unfold curvedUpper curvedLower curvedCorrection
      ring
    rw [Finset.sum_congr rfl hterm, Finset.sum_const, Finset.card_range,
      nsmul_eq_mul]
    field_simp

/-- C1 witness: the layer-bound invariants instantiated at `H = 7`, `R = 5`, `N = 3`. -/
theorem layers_contiguous_and_sum_witness :
    (0 : ℚ) < 7 ∧ 1 ≤ 3 ∧
    ((flatLimits 7 3).length = 3 ∧
     (curvedLimits 5 7 3).length = 3 ∧
     (∀ i, i + 1 < 3 → flatUpper 7 3 i = flatLower 7 3 (i + 1)) ∧
     (∑ i in Finset.range 3, (flatUpper 7 3 i - flatLower 7 3 i)) = 7 ∧
     (∀ i, i + 1 < 3 → curvedUpper 5 7 3 i = curvedLower 5 7 3 (i + 1)) ∧
     (∑ i in Finset.range 3, (curvedUpper 5 7 3 i - curvedLower 5 7 3 i)) = 7) :=
  ⟨by norm_num, by norm_num, layers_contiguous_and_sum 7 5 3 (by norm_num) (by norm_num)⟩

/-- C6 counterexample: at `atmosphere_height = 70` (any layer count, here `1`), the
correction factor is `-35` as claimed, but the conversion written in the spec,
`real_altitude = local_coordinate + offset`, sends `Layer[0].lower_bound` to `-70`,
not to `0`. -/
theorem flat_spec_formula_counterexample :
    flatCorrection 70 = -(70 : ℚ) / 2 ∧
    specRealAltitude (flatLower 70 1 0) (flatCorrection 70) = -70 ∧
    (-70 : ℚ) ≠ 0 := by
  refine ⟨by norm_num [flatCorrection], ?_, by norm_num⟩
  norm_num [specRealAltitude, flatLower, flatCorrection]

/-- C6 amended: in the flat world the correction factor is `-atmosphere_height / 2`,
the code converts real to local altitude by adding the offset
(`local = real + offset`, hence `real = local - offset`), and under that conversion
the real altitude of `Layer[0].lower_bound` is `0` (ground): a detector configured at
real altitude `0` lands exactly on `Layer[0].lower_bound`. -/
theorem flat_correction_and_ground (H : ℚ) (N : ℕ) :
    flatCorrection H = -H / 2 ∧
    flatLower H N 0 - flatCorrection H = 0 ∧
    codeLocalAltitude 0 (flatCorrection H) = flatLower H N 0 := by
  refine ⟨rfl, ?_, ?_⟩
  · simp [flatLower]
  · simp [codeLocalAltitude, flatLower]

/-- C7: in the curved world the correction factor equals the earth radius and
`Layer[0].lower_bound` equals the earth radius. -/
theorem curved_correction_and_lower_bound (R H : ℚ) (N : ℕ) :
    curvedCorrection R = R ∧ curvedLower R H N 0 = R := by
  refine ⟨rfl, ?_⟩
  simp [curvedLower, curvedCorrection]

/-- C5: for every atmosphere height `H > 0` and layer count `N ≥ 1`, the detector half
size equals `min(fixed_detector_half_size, layer_thickness / 20)`, so the full detector
extent never exceeds one tenth of the layer thickness. -/
theorem detector_half_size_min (H : ℚ) (N : ℕ) (hH : 0 < H) (hN : 1 ≤ N) :
    detectorHalfSize H N = min fixedDetectorHalfSize (layerThickness H N / 20) ∧
    2 * detectorHalfSize H N ≤ layerThickness H N / 10 := by
  constructor
  · unfold detectorHalfSize detectorSize fixedDetectorHalfSize layerThickness mm
    rcases le_total (10 * 1 : ℚ) (H / N / 10) with h | h
    · rw [min_eq_left h, min_eq_left (by linarith)]
      ring
    · rw [min_eq_right h, min_eq_right (by linarith)]
      ring
  · unfold detectorHalfSize detectorSize layerThickness
    have h := min_le_right (10 * mm) (H / N / 10)
    linarith

/-- C5 witness: the size bound instantiated at `H = 70 * km`, `N = 10` (7 km layers,
so the 10 mm cap wins). -/
theorem detector_half_size_min_witness :
    (0 : ℚ) < 70 * km ∧ 1 ≤ 10 ∧
    (detectorHalfSize (70 * km) 10 =
      min fixedDetectorHalfSize (layerThickness (70 * km) 10 / 20) ∧
     2 * detectorHalfSize (70 * km) 10 ≤ layerThickness (70 * km) 10 / 10) :=
  ⟨by norm_num [km], by norm_num,
    detector_half_size_min (70 * km) 10 (by norm_num [km]) (by norm_num)⟩

/-- C10: `SetFieldy` only rewrites the `fby` component; `fbx` and `fbz` are unchanged
and a subsequent `GetFieldValue` reports the new `y` with the old `x` and `z`. -/
theorem set_field_y_only (f : UniformMagneticField) (val : ℚ) :
    (SetFieldy f val).fbx = f.fbx ∧
    (SetFieldy f val).fbz = f.fbz ∧
    GetFieldValue (SetFieldy f val) = (f.fbx, val, f.fbz) :=
  ⟨rfl, rfl, rfl⟩

/-- Helper: a successful scan starting at `j` returns an index below `j` plus the number
of scanned intervals. -/
theorem findLayerAux_lt_of_some (alt : ℚ) :
    ∀ (l : List (ℚ × ℚ)) (j k : ℕ), findLayerAux alt l j = some k → k < j + l.length := by
  intro l
  induction l with
  | nil => intro j k h; simp [findLayerAux] at h
  | cons p rest ih =>
    intro j k h
    rw [findLayerAux] at h
    by_cases hc : p.1 ≤ alt ∧ alt ≤ p.2
    · rw [if_pos hc] at h
      simp only [Option.some.injEq] at h
      subst h
      simp
    · rw [if_neg hc] at h
      have := ih (j + 1) k h
      simp only [List.length_cons]
      omega

/-- Helper: when no interval contains the altitude, the scan fails. -/
theorem findLayerAux_none (alt : ℚ) :
    ∀ (l : List (ℚ × ℚ)) (j : ℕ), (∀ p ∈ l, ¬(p.1 ≤ alt ∧ alt ≤ p.2)) →
      findLayerAux alt l j = none := by
  intro l
  induction l with
  | nil => intro j _; rfl
  | cons p rest ih =>
    intro j h
    rw [findLayerAux, if_neg (h p (List.mem_cons_self p rest))]
    exact ih (j + 1) fun q hq => h q (List.mem_cons_of_mem p hq)

/-- C9: for a nonempty limits table the computed layer index is always strictly below
the number of layers (so indexing the per-layer material and logical-volume arrays with
it stays in bounds), and when no layer interval contains the altitude the index is the
`np.zeros` default `0`. -/
theorem detector_layer_index_in_bounds (limits : List (ℚ × ℚ)) (alt : ℚ)
    (hne : limits ≠ []) :
    detectorLayer limits alt < limits.length ∧
    ((∀ p ∈ limits, ¬(p.1 ≤ alt ∧ alt ≤ p.2)) → detectorLayer limits alt = 0) := by
  constructor
  · unfold detectorLayer
    rcases hfind : findLayerAux alt limits 0 with _ | k
    · have : 0 < limits.length := List.length_pos.mpr hne
      simpa using this
    · have := findLayerAux_lt_of_some alt limits 0 k hfind
      simpa using this
  · intro h
    unfold detectorLayer
    rw [findLayerAux_none alt limits 0 h]
    rfl

/-- C9 witness: the index bound and the default instantiated on a one-layer table with
an altitude above the layer. -/
theorem detector_layer_index_in_bounds_witness :
    [((0 : ℚ), (1 : ℚ))] ≠ [] ∧
    (detectorLayer [((0 : ℚ), (1 : ℚ))] 5 < ([((0 : ℚ), (1 : ℚ))] : List (ℚ × ℚ)).length ∧
     ((∀ p ∈ ([((0 : ℚ), (1 : ℚ))] : List (ℚ × ℚ)), ¬(p.1 ≤ (5 : ℚ) ∧ (5 : ℚ) ≤ p.2)) →
       detectorLayer [((0 : ℚ), (1 : ℚ))] 5 = 0)) :=
  ⟨by decide, detector_layer_index_in_bounds [((0 : ℚ), (1 : ℚ))] 5 (by decide)⟩

/-- C2: a detector requested at real altitude `100` km in a flat world of height
`70` km with `10` layers lies strictly above every layer interval, yet the flat
builder still creates a placement for it: the lookup default sends it to layer `0`
and the clamp parks it just under layer 0's upper local limit (`3499995` internal
units above the layer centre). No omission happens and nothing is signalled. -/
theorem detector_outside_bounds_still_placed :
    (∀ p ∈ flatLimits (70 * km) 10,
      p.2 < codeLocalAltitude 100 (flatCorrection (70 * km))) ∧
    placeDetectorsFlat (70 * km) 10 [100] = [(0, 3499995)] := by
  constructor
  · intro p hp
    simp only [flatLimits, List.mem_map, List.mem_range] at hp
    obtain ⟨i, hi, rfl⟩ := hp
    interval_cases i <;>
      norm_num [flatUpper, boxHeight, flatCorrection, codeLocalAltitude, km]
  · norm_num [placeDetectorsFlat, placeDetectorFlat, detectorLayer, findLayerAux,
      flatLimits, List.range_succ, flatLower, flatUpper, boxHeight, flatCorrection,
      codeLocalAltitude, detectorSize, clampFlat, km, mm]

/-- C3 counterexample: in a flat world of height `70` km with `2` layers and a field
table holding `x = 0` nT at altitude `0` km and `x = 70` nT at altitude `70` km, the
code queries the table at the `linspace` sample altitudes `0` and `70` km (giving
`x`-components `0` and `7e-8` T), not at the layer mid-altitudes `17.5` and `52.5` km
(which would give `1.75e-8` and `5.25e-8` T): the produced field vectors differ from
the mid-altitude interpolation the claim describes. -/
theorem field_query_not_midpoint_counterexample :
    getMagneticFieldFile (70 * km) 2 [⟨0, 0, 0, 0⟩, ⟨70, 0, 0, 70⟩] ≠
      claimedFieldFile (70 * km) 2 [⟨0, 0, 0, 0⟩, ⟨70, 0, 0, 70⟩] := by
  norm_num [getMagneticFieldFile, claimedFieldFile, interHeights, midpointRealAltitude,
    flatLower, flatUpper, boxHeight, flatCorrection, magTableX, magTableY, magTableZ,
    interp1, List.range_succ, km, mm]

/-- C3 amended: in both field modes, layer `i` receives the field evaluated at the
`i`-th evenly spaced sample altitude `inter_heights[i]` of
`np.linspace(0, atmosphere_height, N)` (not at the layer mid-altitude): in file mode
each of the three components is linearly interpolated (edge-clamped) against the
table's altitude column at `inter_heights[i]`, and in model mode the geomagnetic model
is queried, with `(latitude, longitude, decimal_year)` fixed, at `inter_heights[i] / km`
with no correction-offset conversion, the vertical component negated, and the result
scaled from nanotesla to tesla. -/
theorem field_query_at_inter_heights (H : ℚ) (N : ℕ) (rows : List MagSample)
    (model : ℚ → GeoMagResult) (i : ℕ) (hi : i < N) :
    (getMagneticFieldFile H N rows)[i]? =
      some (interp1 (interHeights H N i) (magTableX rows),
            interp1 (interHeights H N i) (magTableY rows),
            interp1 (interHeights H N i) (magTableZ rows)) ∧
    (getMagneticFieldModel H N model)[i]? =
      some ((model (interHeights H N i / km)).x / 1000000000,
            (model (interHeights H N i / km)).y / 1000000000,
            -(model (interHeights H N i / km)).z / 1000000000) := by
  constructor
  · unfold getMagneticFieldFile
    simp [List.getElem?_map, List.getElem?_range, hi]
  · unfold getMagneticFieldModel
    simp [List.getElem?_map, List.getElem?_range, hi]

/-- C3 witness: the per-layer query altitudes instantiated at `H = 70 * km`, `N = 2`,
layer `0`, an empty table and a constant model. -/
theorem field_query_at_inter_heights_witness :
    0 < 2 ∧
    ((getMagneticFieldFile (70 * km) 2 [])[0]? =
       some (interp1 (interHeights (70 * km) 2 0) (magTableX []),
             interp1 (interHeights (70 * km) 2 0) (magTableY []),
             interp1 (interHeights (70 * km) 2 0) (magTableZ [])) ∧
     (getMagneticFieldModel (70 * km) 2 fun _ => ⟨1, 2, 3⟩)[0]? =
       some (((fun _ => (⟨1, 2, 3⟩ : GeoMagResult)) (interHeights (70 * km) 2 0 / km)).x / 1000000000,
             ((fun _ => (⟨1, 2, 3⟩ : GeoMagResult)) (interHeights (70 * km) 2 0 / km)).y / 1000000000,
             -((fun _ => (⟨1, 2, 3⟩ : GeoMagResult)) (interHeights (70 * km) 2 0 / km)).z / 1000000000)) :=
  ⟨by norm_num,
    field_query_at_inter_heights (70 * km) 2 [] (fun _ => ⟨1, 2, 3⟩) 0 (by norm_num)⟩

/-- C4 counterexample: with local upper limit `b = 1`, half size `h = 1 / 4` and
requested local position `p = -7 / 8`, the request crosses the lower bound
(`p - h < -b`) while the upper test does not fire, yet the placed inner face
`clampFlat b h p - h = -5 / 8 - 1 / 4 = -7 / 8` does not touch the lower bound `-1`. -/
theorem flat_lower_clamp_counterexample :
    ((-7 / 8 : ℚ) - 1 / 4 < -1) ∧ ((-7 / 8 : ℚ) + 1 / 4 ≤ 1) ∧
    clampFlat 1 (1 / 4) (-7 / 8) - 1 / 4 ≠ -1 := by
  refine ⟨by norm_num, by norm_num, ?_⟩
  norm_num [clampFlat]

/-- C4 amended: in the flat builder, when the requested position plus the half size
exceeds the upper local limit the detector is shifted so its outer face lies exactly on
the upper bound (in particular a detector requested exactly at the upper bound), and
when the requested position minus the half size crosses the lower limit (the upper test
not firing) the position is shifted up by the half size, leaving the inner face at the
requested position rather than on the lower bound. -/
theorem flat_clamp_behavior (b h p : ℚ) (hh : 0 < h) :
    (b < p + h → clampFlat b h p + h = b) ∧
    (p + h ≤ b → p - h < -b → clampFlat b h p - h = p) ∧
    clampFlat b h b + h = b := by
  refine ⟨?_, ?_, ?_⟩
  · intro hgt
    rw [clampFlat, if_pos hgt]
    ring
  · intro hle hlow
    rw [clampFlat, if_neg (not_lt.mpr hle), if_pos hlow]
    ring
  · rw [clampFlat, if_pos (by linarith)]
    ring

/-- C4 witness: the clamp behaviour instantiated at `b = 1`, `h = 1 / 4`, `p = 9 / 10`. -/
theorem flat_clamp_behavior_witness :
    (0 : ℚ) < 1 / 4 ∧
    (((1 : ℚ) < 9 / 10 + 1 / 4 → clampFlat 1 (1 / 4) (9 / 10) + 1 / 4 = 1) ∧
     ((9 / 10 : ℚ) + 1 / 4 ≤ 1 → (9 / 10 : ℚ) - 1 / 4 < -1 →
       clampFlat 1 (1 / 4) (9 / 10) - 1 / 4 = 9 / 10) ∧
     clampFlat 1 (1 / 4) 1 + 1 / 4 = 1) :=
  ⟨by norm_num, flat_clamp_behavior 1 (1 / 4) (9 / 10) (by norm_num)⟩

/-- Helper: interpolation at the position of table entry `k` returns the value of
entry `k`, provided the table positions are strictly increasing. -/
theorem interp1_node :
    ∀ (l : List (ℚ × ℚ)), l.Pairwise (fun a b => a.1 < b.1) →
      ∀ (k : ℕ) (hk : k < l.length), interp1 (l.get ⟨k, hk⟩).1 l = (l.get ⟨k, hk⟩).2 := by
  intro l
  induction l with
  | nil => intro _ k hk; simp at hk
  | cons p tl ih =>
    intro hl k hk
    match tl, k with
    | [], 0 => simp [interp1]
    | [], k + 1 => simp at hk
    | q :: rest, 0 =>
      show interp1 p.1 (p :: q :: rest) = p.2
      rw [interp1, if_pos le_rfl]
    | q :: rest, 1 =>
      show interp1 q.1 (p :: q :: rest) = q.2
      have hpq : p.1 < q.1 := (List.pairwise_cons.mp hl).1 q (List.mem_cons_self q _)
      have hne : q.1 - p.1 ≠ 0 := sub_ne_zero.mpr (ne_of_gt hpq)
      rw [interp1, if_neg (not_le.mpr hpq), if_pos le_rfl]
      field_simp
    | q :: rest, j + 2 =>
      have hhead : ∀ b ∈ q :: rest, p.1 < b.1 := (List.pairwise_cons.mp hl).1
      have htl : (q :: rest).Pairwise (fun a b => a.1 < b.1) :=
        (List.pairwise_cons.mp hl).2
      have hj1 : j + 1 < (q :: rest).length := by simpa using hk
      have hget : ((p :: q :: rest).get ⟨j + 2, hk⟩) = (q :: rest).get ⟨j + 1, hj1⟩ := rfl
      rw [hget]
      have hjr : j < rest.length := by simpa using hj1
      have hrest : (q :: rest).get ⟨j + 1, hj1⟩ = rest.get ⟨j, hjr⟩ := rfl
      have hmem : (q :: rest).get ⟨j + 1, hj1⟩ ∈ rest := by
        rw [hrest]
        exact List.get_mem rest j hjr
      have hpx : p.1 < ((q :: rest).get ⟨j + 1, hj1⟩).1 :=
        hhead _ (List.mem_cons_of_mem q hmem)
      have hqx : q.1 < ((q :: rest).get ⟨j + 1, hj1⟩).1 :=
        (List.pairwise_cons.mp htl).1 _ hmem
      rw [interp1, if_neg (not_le.mpr hpx), if_neg (not_le.mpr hqx)]
      exact ih htl (j + 1) hj1

/-- Helper: interpolation strictly above every table position returns the last value. -/
theorem interp1_beyond (x : ℚ) :
    ∀ (l : List (ℚ × ℚ)) (hne : l ≠ []), (∀ p ∈ l, p.1 < x) →
      interp1 x l = (l.getLast hne).2 := by
  intro l
  induction l with
  | nil => intro hne; exact absurd rfl hne
  | cons p tl ih =>
    intro _ h
    match tl with
    | [] => simp [interp1]
    | q :: rest =>
      have hp : p.1 < x := h p (List.mem_cons_self p _)
      have hq : q.1 < x := h q (List.mem_cons_of_mem p (List.mem_cons_self q _))
      rw [interp1, if_neg (not_le.mpr hp), if_neg (not_le.mpr hq)]
      rw [List.getLast_cons (List.cons_ne_nil q rest)]
      exact ih (List.cons_ne_nil q rest) fun r hr => h r (List.mem_cons_of_mem p hr)

/-- Helper: in a strictly increasing list every element is at most the last one. -/
theorem le_getLast_of_sorted :
    ∀ (l : List ℚ), l.Pairwise (· < ·) → ∀ (hne : l ≠ []) (a : ℚ), a ∈ l →
      a ≤ l.getLast hne := by
  intro l
  induction l with
  | nil => intro _ hne; exact absurd rfl hne
  | cons b tl ih =>
    intro hl hne a ha
    match tl with
    | [] =>
      simp at ha
      simp [ha]
    | q :: rest =>
      rw [List.getLast_cons (List.cons_ne_nil q rest)]
      rcases List.mem_cons.mp ha with rfl | hmem
      · have hlast : (q :: rest).getLast (List.cons_ne_nil q rest) ∈ q :: rest :=
          List.getLast_mem _
        exact le_of_lt ((List.pairwise_cons.mp hl).1 _ hlast)
      · exact ih (List.pairwise_cons.mp hl).2 (List.cons_ne_nil q rest) a hmem

/-- C8: for a profile with at least two points and strictly increasing altitudes,
resampling at an original altitude point returns that point's original density and
temperature, and resampling at any altitude beyond the profile's maximum returns the
profile's last density and temperature (edge clamp, no extrapolation). -/
theorem resample_node_and_clamp (alts dens temps : List ℚ)
    (hsort : alts.Pairwise (· < ·))
    (hd : dens.length = alts.length) (ht : temps.length = alts.length)
    (h2 : 2 ≤ alts.length) :
    (∀ (k : ℕ) (hk : k < alts.length),
        resampleAt alts dens temps (alts.get ⟨k, hk⟩) =
          (dens.get ⟨k, by omega⟩, temps.get ⟨k, by omega⟩)) ∧
    (∀ x, alts.getLast (List.ne_nil_of_length_pos (by omega)) < x →
        resampleAt alts dens temps x =
          (dens.getLast (List.ne_nil_of_length_pos (by omega)),
           temps.getLast (List.ne_nil_of_length_pos (by omega)))) := by
  have hne : alts ≠ [] := List.ne_nil_of_length_pos (by omega)
  have node : ∀ (vals : List ℚ), vals.length = alts.length →
      ∀ (k : ℕ) (hk : k < alts.length) (hkv : k < vals.length),
        interp1 (alts.get ⟨k, hk⟩) (alts.zip vals) = vals.get ⟨k, hkv⟩ := by
    intro vals hv k hk hkv
    have hkz : k < (alts.zip vals).length := by
      rw [List.length_zip]
      omega
    have hfst : (alts.zip vals).map Prod.fst = alts :=
      List.map_fst_zip alts vals (by omega)
    have hpzip : (alts.zip vals).Pairwise (fun a b => a.1 < b.1) := by
      have h := hsort
      rw [← hfst] at h
      exact List.pairwise_map.mp h
    have hgz : (alts.zip vals).get ⟨k, hkz⟩ = (alts.get ⟨k, hk⟩, vals.get ⟨k, hkv⟩) := by
      simp [List.get_zip]
    have hmain := interp1_node (alts.zip vals) hpzip k hkz
    rw [hgz] at hmain
    exact hmain
  have beyond : ∀ (vals : List ℚ), vals.length = alts.length →
      ∀ (hvne : vals ≠ []) (x : ℚ),
        alts.getLast hne < x →
        interp1 x (alts.zip vals) = vals.getLast hvne := by
    intro vals hv hvne x hx
    have hlz : (alts.zip vals).length = alts.length := by
      rw [List.length_zip]
      omega
    have hzne : alts.zip vals ≠ [] := List.ne_nil_of_length_pos (by omega)
    have hfst : (alts.zip vals).map Prod.fst = alts :=
      List.map_fst_zip alts vals (by omega)
    have hall : ∀ p ∈ alts.zip vals, p.1 < x := by
      intro p hp
      have hmem : p.1 ∈ alts := by
        rw [← hfst]
        exact List.mem_map_of_mem Prod.fst hp
      exact lt_of_le_of_lt (le_getLast_of_sorted alts hsort hne p.1 hmem) hx
    rw [interp1_beyond x (alts.zip vals) hzne hall]
    rw [List.getLast_eq_get (alts.zip vals) hzne, List.getLast_eq_get vals hvne]
    have hgz : (alts.zip vals).get ⟨(alts.zip vals).length - 1, by omega⟩ =
        (alts.get ⟨(alts.zip vals).length - 1, by omega⟩,
         vals.get ⟨(alts.zip vals).length - 1, by omega⟩) := by
      simp [List.get_zip]
    rw [hgz]
    have hidx : (⟨(alts.zip vals).length - 1, by omega⟩ : Fin vals.length) =
        ⟨vals.length - 1, by omega⟩ := Fin.mk_eq_mk.mpr (by omega)
    rw [hidx]
  constructor
  · intro k hk
    unfold resampleAt
    rw [node dens hd k hk (by omega), node temps ht k hk (by omega)]
  · intro x hx
    unfold resampleAt
    rw [beyond dens hd (List.ne_nil_of_length_pos (by omega)) x hx,
      beyond temps ht (List.ne_nil_of_length_pos (by omega)) x hx]

/-- C8 witness: the resampling facts instantiated on the three-point profile
`(0 km, 12, 300)`, `(10 km, 6, 250)`, `(70 km, 1, 220)`. -/
theorem resample_node_and_clamp_witness :
    ([(0 : ℚ), 10, 70].Pairwise (· < ·)) ∧
    ([(12 : ℚ), 6, 1] : List ℚ).length = ([(0 : ℚ), 10, 70] : List ℚ).length ∧
    ([(300 : ℚ), 250, 220] : List ℚ).length = ([(0 : ℚ), 10, 70] : List ℚ).length ∧
    2 ≤ ([(0 : ℚ), 10, 70] : List ℚ).length ∧
    ((∀ (k : ℕ) (hk : k < ([(0 : ℚ), 10, 70] : List ℚ).length),
        resampleAt [0, 10, 70] [12, 6, 1] [300, 250, 220]
            (([(0 : ℚ), 10, 70] : List ℚ).get ⟨k, hk⟩) =
          (([(12 : ℚ), 6, 1] : List ℚ).get ⟨k, hk⟩,
           ([(300 : ℚ), 250, 220] : List ℚ).get ⟨k, hk⟩)) ∧
     (∀ x, ([(0 : ℚ), 10, 70] : List ℚ).getLast (by simp) < x →
        resampleAt [0, 10, 70] [12, 6, 1] [300, 250, 220] x =
          (([(12 : ℚ), 6, 1] : List ℚ).getLast (by simp),
           ([(300 : ℚ), 250, 220] : List ℚ).getLast (by simp)))) := by
  have hp : ([(0 : ℚ), 10, 70] : List ℚ).Pairwise (· < ·) := by
    norm_num [List.pairwise_cons]
  have hd : ([(12 : ℚ), 6, 1] : List ℚ).length = ([(0 : ℚ), 10, 70] : List ℚ).length := by
    norm_num
  have ht : ([(300 : ℚ), 250, 220] : List ℚ).length = ([(0 : ℚ), 10, 70] : List ℚ).length := by
    norm_num
  have h2 : 2 ≤ ([(0 : ℚ), 10, 70] : List ℚ).length := by norm_num
  exact ⟨hp, hd, ht, h2,
    resample_node_and_clamp [0, 10, 70] [12, 6, 1] [300, 250, 220] hp hd ht h2⟩

end ParticleSim
